import Mathlib

/-!
Verification development for the Code-to-PDF repository.

The Python sources (`src/explainer.py`, `src/report.py`, `src/main.py`) are
shallowly embedded below.  Pure string manipulation becomes Lean functions on
`String`/`List Char`; the filesystem is modelled as a tree of entries and
`os.walk` as a recursive traversal; the LLM client is an oracle
`String → Except String String`; the thread pool's nondeterministic completion
order is an explicit permutation parameter.
-/

set_option maxRecDepth 10000

/-! ## Sanitizers (explainer.remove_non_ascii, report.remove_unicode, explainer.safe_path) -/

/-- `str.encode('ascii', errors='ignore').decode('ascii')`: characters with
code point below 128 are kept, all others dropped. -/
def asciiIgnore : List Char → List Char
  | [] => []
  | c :: cs => if c.toNat < 128 then c :: asciiIgnore cs else asciiIgnore cs

/-- `explainer.remove_non_ascii`. -/
def remove_non_ascii (s : String) : String :=
  String.mk (asciiIgnore s.data)

/-- Deletion performed by `re.sub(r'[^\x00-\x7F]+', '', text)`: every character
outside `[\x00-\x7F]` is removed. -/
def subOutsideAscii : List Char → List Char
  | [] => []
  | c :: cs => if 0x00 ≤ c.toNat ∧ c.toNat ≤ 0x7F then c :: subOutsideAscii cs else subOutsideAscii cs

/-- `report.remove_unicode`. -/
def remove_unicode (s : String) : String :=
  String.mk (subOutsideAscii s.data)

/-- The character class `([_#{}$%&~^\\])` of `explainer.safe_path`. -/
def SPECIALS : List Char := ['_', '#', '\x7b', '\x7d', '$', '%', '&', '~', '^', '\\']

/-- `path.replace("\\", "/")`. -/
def normalizeSeps (l : List Char) : List Char :=
  l.map fun c => if c = '\\' then '/' else c

/-- `re.sub(specials, r"\\\1", path)`: each character of the class is replaced
by a backslash followed by itself. -/
def escapeSpecials : List Char → List Char
  | [] => []
  | c :: cs => if c ∈ SPECIALS then '\\' :: c :: escapeSpecials cs else c :: escapeSpecials cs

/-- `explainer.safe_path`. -/
def safe_path (s : String) : String :=
  String.mk (escapeSpecials (normalizeSeps s.data))

/-! ## Extensions (`os.path.splitext(...)[1].lower()`) -/

/-- On a reversed character list, the characters up to and including the first
dot (the reversed extension), or `[]` when no dot occurs. -/
def extRev : List Char → List Char
  | [] => []
  | c :: cs =>
    if c = '.' then [c]
    else match extRev cs with
      | [] => []
      | r => c :: r

/-- `os.path.splitext(name)[1]`: the suffix from the last dot, where leading
dots of the basename never start an extension. -/
def splitextExt (name : List Char) : List Char :=
  extRev (name.dropWhile (fun c => c = '.')).reverse |>.reverse

/-- `os.path.splitext(name)[1].lower()` applied to a file name. -/
def extLower (name : String) : String :=
  String.mk ((splitextExt name.data).map Char.toLower)

/-- `explainer.ALLOWED_EXTENSIONS`. -/
def ALLOWED_EXTENSIONS : List String :=
  [".py", ".js", ".html", ".css", ".ts", ".jsx", ".java", ".cpp"]

namespace Explainer

/-- `explainer.EXCLUDE_DIRS`. -/
def EXCLUDE_DIRS : List String := ["node_modules", ".git", "dist", "build", "__pycache__"]

end Explainer

namespace Report

/-- `report.EXCLUDE_DIRS` (rebound after the import of the explainer's set). -/
def EXCLUDE_DIRS : List String := ["node_modules", ".git", "__pycache__", "venv", ".idea", ".vscode"]

end Report

/-! ## Filesystem model and `os.walk` -/

/-- A regular file: name, size in bytes (`os.path.getsize`), and the text
`read_code` yields for it (decoding errors are ignored by the source, so the
content is just the string that results). -/
structure FileE where
  name : String
  size : Nat
  content : String
deriving DecidableEq, Repr

mutual
/-- A directory entry. -/
inductive Entry where
  | file (f : FileE)
  | dir (name : String) (children : EntryList)

/-- Listing of a directory, in the order the OS reports it. -/
inductive EntryList where
  | nil
  | cons (e : Entry) (es : EntryList)
end

/-- The `files` component of an `os.walk` triple: the plain files of one
directory, in listing order. -/
def filesOf : EntryList → List FileE
  | .nil => []
  | .cons (.file f) es => f :: filesOf es
  | .cons (.dir _ _) es => filesOf es

/-- One `os.walk` frame: the directory's path components relative to the walk
root, and its files. -/
abbrev Frame := List String × List FileE

/-- The frames contributed by the subdirectories occurring in a listing, given
the pruning `dirs[:] = [d for d in dirs if d not in ex]`: an excluded directory
is neither reported nor descended into. -/
def walkList (ex : List String) (comps : List String) : EntryList → List Frame
  | .nil => []
  | .cons (.file _) es => walkList ex comps es
  | .cons (.dir n cs) es =>
    (if n ∈ ex then [] else (comps ++ [n], filesOf cs) :: walkList ex (comps ++ [n]) cs)
      ++ walkList ex comps es

/-- `os.walk(root)` with the in-place exclusion filter: the root frame followed
by the pruned pre-order traversal. -/
def osWalk (ex : List String) (root : EntryList) : List Frame :=
  ([], filesOf root) :: walkList ex [] root

/-! ## Lexical order on file names (Python `sorted`) -/

/-- Code-point lexicographic `≤` on character lists, matching Python string
comparison. -/
def strLeB : List Char → List Char → Bool
  | [], _ => true
  | _ :: _, [] => false
  | a :: as, b :: bs =>
    if a.toNat < b.toNat then true
    else if b.toNat < a.toNat then false
    else strLeB as bs

/-- Order on files by name, as used by `sorted(files)`. -/
def fileLe (a b : FileE) : Prop := strLeB a.name.data b.name.data = true

instance : DecidableRel fileLe := fun a b => by unfold fileLe; infer_instance

/-- `sorted(files)`: stable sort of a directory listing by file name. -/
def sortFiles (l : List FileE) : List FileE := List.insertionSort fileLe l

/-! ## LLM client (explainer.call_llm and the prompt builders) -/

/-- The remote chat-completion endpoint: a prompt is mapped either to the
assistant's raw text or to a raised transport/API error. -/
abbrev LLM := String → Except String String

instance {ε α : Type} [DecidableEq ε] [DecidableEq α] : DecidableEq (Except ε α) := fun a b =>
  match a, b with
  | .ok x, .ok y =>
    if h : x = y then .isTrue (by rw [h]) else .isFalse (by intro hc; cases hc; exact h rfl)
  | .error x, .error y =>
    if h : x = y then .isTrue (by rw [h]) else .isFalse (by intro hc; cases hc; exact h rfl)
  | .ok _, .error _ => .isFalse (by intro hc; cases hc)
  | .error _, .ok _ => .isFalse (by intro hc; cases hc)

/-- `explainer.call_llm`: perform the request and strip non-ASCII characters
from the returned content; any transport or API error propagates. -/
def call_llm (oracle : LLM) (prompt : String) : Except String String :=
  match oracle prompt with
  | .error e => .error e
  | .ok body => .ok (remove_non_ascii body)

/-- The prompt built by `explainer.get_explanation`. -/
def explanationPrompt (code : String) : String :=
  "Summarize the given code in at most TWO short sentences. " ++
  "Avoid detailed breakdowns — just say what it does.\n\n" ++
  "```" ++ code ++ "```"

/-- The prompt built by `explainer.generate_quiz`. -/
def quizPrompt (all_explanations : String) : String :=
  "Based on the following project explanations, create a quiz with exactly 10 multiple-choice questions:\n" ++
  "- 2 easy\n- 3 medium\n- 5 hard\n" ++
  "Each question should have 4 options labeled A-D, one correct answer, and clearly mark the correct answer.\n\n" ++
  "Project explanations:\n" ++ all_explanations

/-! ## Per-file task (explainer.process_file) -/

/-- A task descriptor as submitted by `process_folder`: directory components of
the file relative to the walked folder, the file's name, size, content, and the
sequential counter assigned at submission. -/
structure TaskD where
  comps : List String
  name : String
  size : Nat
  content : String
  counter : Nat
deriving DecidableEq, Repr

/-- `os.path.relpath(file_path, folder_path)` for a discovered file. -/
def relPathOf (t : TaskD) : String :=
  String.intercalate "/" (t.comps ++ [t.name])

/-- The `## {counter}. {safe_rel}` heading shared by both fragments. -/
def mdHeading (counter : Nat) (safe_rel : String) : String :=
  "## " ++ toString counter ++ ". " ++ safe_rel

/-- `explainer.process_file`.  The first component is the task's outcome
(`none` models the `None, None` soft-skip); the second component records the
prompts actually sent to the LLM, so that "no LLM call is issued" is a
provable statement. -/
def process_file (oracle : LLM) (t : TaskD) :
    Except String (Option (String × String)) × List String :=
  let ext := extLower t.name
  if ext ∉ ALLOWED_EXTENSIONS then (.ok none, [])
  else if t.size > 50000 then (.ok none, [])
  else
    let code := t.content
    let safe_rel := safe_path (relPathOf t)
    let code_md := mdHeading t.counter safe_rel ++
      ("\n```" ++ String.mk (ext.data.drop 1) ++ "\n" ++ code ++ "\n```\n\n")
    let prompt := explanationPrompt code
    match call_llm oracle prompt with
    | .error e => (.error e, [prompt])
    | .ok explanation =>
      (.ok (some (code_md, mdHeading t.counter safe_rel ++ ("\n\n" ++ explanation ++ "\n\n"))),
       [prompt])

/-! ## Concurrent orchestrator (explainer.process_folder) -/

/-- The discovery loop of `process_folder`: for every walked directory, the
files sorted by name, filtered by the extension allow-list. -/
def discoveredFiles (root : EntryList) : List (List String × FileE) :=
  (osWalk Explainer.EXCLUDE_DIRS root).flatMap fun fr =>
    ((sortFiles fr.2).filter fun f => extLower f.name ∈ ALLOWED_EXTENSIONS).map fun f => (fr.1, f)

/-- The submitted tasks, with `counter` starting at 1 and incremented once per
submission. -/
def tasksOf (root : EntryList) : List TaskD :=
  (discoveredFiles root).enum.map fun p =>
    ⟨p.2.1, p.2.2.name, p.2.2.size, p.2.2.content, p.1 + 1⟩

/-- The `as_completed` loop: retrieve each future's result in completion order
(`perm` lists task indices), re-raising a stored error, and append non-empty
fragments to the code document, the explanation document and the explanations
corpus. -/
def collectResults (oracle : LLM) (ts : List TaskD) :
    List Nat → String → String → String → Except String (String × String × String)
  | [], code, expl, corpus => .ok (code, expl, corpus)
  | i :: rest, code, expl, corpus =>
    match ts.get? i with
    | none => collectResults oracle ts rest code expl corpus
    | some t =>
      match (process_file oracle t).1 with
      | .error e => .error e
      | .ok none => collectResults oracle ts rest code expl corpus
      | .ok (some (c, x)) =>
        collectResults oracle ts rest (code ++ c) (expl ++ x) (corpus ++ x ++ "\n")

/-- `explainer.process_folder`, parametrised by the completion order of the
futures.  Returns the list of PDF documents actually written (file name and
markdown text) and the error that aborted the run, if any.  The two code /
explanation PDFs are written before the quiz is generated, and nothing is
written when a per-file task re-raises. -/
def process_folder (oracle : LLM) (root : EntryList) (perm : List Nat) :
    List (String × String) × Option String :=
  let ts := tasksOf root
  match collectResults oracle ts perm "# Project Code\n\n"
      "# Project Code with Short Explanations\n\n" "" with
  | .error e => ([], some e)
  | .ok (code_md, explanation_md, all_explanations_text) =>
    let saved := [("code_only11.pdf", code_md),
                  ("code_with_explanation11.pdf", explanation_md)]
    match call_llm oracle (quizPrompt all_explanations_text) with
    | .error e => (saved, some e)
    | .ok quiz_text =>
      (saved ++ [("quiz11.pdf", "# Project Quiz\n\n" ++ quiz_text)], none)

/-! ## Report-side traversals (explainer.explain_project, report.run_lizard) -/

/-- The files read by `explainer.explain_project`, as component paths, in
visitation order: same walk and allow-list as the explanation pipeline, but the
per-directory listings are NOT sorted. -/
def explainVisit (root : EntryList) : List (List String) :=
  (osWalk Explainer.EXCLUDE_DIRS root).flatMap fun fr =>
    (fr.2.filter fun f => extLower f.name ∈ ALLOWED_EXTENSIONS).map fun f => fr.1 ++ [f.name]

/-- The `all_code` accumulator of `explain_project`: contents of the visited
files, each followed by a blank line. -/
def explainAllCode (root : EntryList) : String :=
  String.join ((osWalk Explainer.EXCLUDE_DIRS root).flatMap fun fr =>
    (fr.2.filter fun f => extLower f.name ∈ ALLOWED_EXTENSIONS).map fun f => f.content ++ "\n\n")

/-- The suffix tuple of `file.endswith((".js", ".py", ".java", ".cpp", ".c", ".ts"))`
in `report.run_lizard`. -/
def LIZARD_SUFFIXES : List String := [".js", ".py", ".java", ".cpp", ".c", ".ts"]

/-- `str.endswith` for one suffix. -/
def endsWithB (s suffix : String) : Bool :=
  suffix.data.isSuffixOf s.data

/-- The extension filter of `run_lizard`. -/
def lizardMatch (name : String) : Bool :=
  LIZARD_SUFFIXES.any fun suffix => endsWithB name suffix

/-- The files visited by `report.run_lizard`, as component paths, in
visitation order (per-directory listing order, report-side exclusion set). -/
def lizardVisit (root : EntryList) : List (List String) :=
  (osWalk Report.EXCLUDE_DIRS root).flatMap fun fr =>
    (fr.2.filter fun f => lizardMatch f.name).map fun f => fr.1 ++ [f.name]

/-- One record of `lizard.analyze_file(...).function_list`. -/
structure FuncRec where
  name : String
  cyclomatic_complexity : Nat
  length : Nat
deriving DecidableEq, Repr

/-- The third-party analyzer: per file path, either its function records or a
raised analysis error. -/
abbrev Analyzer := List String → Except String (List FuncRec)

/-- `report.run_lizard`: `results.extend(...)` on success, log-and-skip on a
per-file exception. -/
def run_lizard (analyze : Analyzer) (root : EntryList) : List FuncRec :=
  (lizardVisit root).foldl
    (fun results fp =>
      match analyze fp with
      | .ok fl => results ++ fl
      | .error _ => results)
    []

/-- The `complexity_report` string built in `report.generate_report` (the
joined per-function lines, with `remove_unicode` applied). -/
def complexityReport (functions : List FuncRec) : String :=
  remove_unicode (String.intercalate "\n"
    (functions.map fun func =>
      func.name ++ " - CC: " ++ toString func.cyclomatic_complexity ++
      " - LOC: " ++ toString func.length))

/-! ## CLI entry point (explainer.main) -/

/-- Process-level inputs of `explainer.main`: the credential as read from the
environment (`None` when unset) and `sys.argv` (program name first). -/
structure CliEnv where
  apiKey : Option String
  argv : List String
  isDir : String → Bool

/-- Python truthiness of `API_KEY`: an unset or empty credential is falsy. -/
def keyTruthy (k : Option String) : Bool :=
  match k with
  | none => false
  | some s => !(s = "")

/-- Observable outcome of `explainer.main`. -/
inductive MainOutcome where
  | exit1 (msg : String)
  | raised (msg : String)
  | run (folder : String)
deriving DecidableEq, Repr

/-- `explainer.main`: credential check first (raising `ValueError`), then the
argument-count check, then the directory check (both exiting with status 1),
then the folder pipeline. -/
def mainExplainer (env : CliEnv) : MainOutcome :=
  if !(keyTruthy env.apiKey) then
    .raised "OPENROUTER_API_KEY not set in environment variables."
  else if env.argv.length < 2 then
    .exit1 "Usage: python explainer.py <folder_path>"
  else
    let folder_path := (env.argv.get? 1).getD ""
    if !(env.isDir folder_path) then
      .exit1 ("❌ '" ++ folder_path ++ "' is not a valid folder.")
    else
      .run folder_path

/-! ## Basic lemmas about the sanitizers -/

theorem asciiIgnore_eq_filter (l : List Char) :
    asciiIgnore l = l.filter fun c => c.toNat < 128 := by
  induction l with
  | nil => rfl
  | cons c cs ih =>
    by_cases h : c.toNat < 128 <;> simp [asciiIgnore, List.filter, h, ih]

theorem subOutsideAscii_eq_filter (l : List Char) :
    subOutsideAscii l = l.filter fun c => c.toNat < 128 := by
  induction l with
  | nil => rfl
  | cons c cs ih =>
    by_cases h : c.toNat < 128
    · have h' : 0x00 ≤ c.toNat ∧ c.toNat ≤ 0x7F := by omega
      simp [subOutsideAscii, List.filter, h, h', ih]
    · have h' : ¬ (0x00 ≤ c.toNat ∧ c.toNat ≤ 0x7F) := by omega
      simp only [subOutsideAscii, if_neg h', ih, List.filter]
      simp [h]

/-- **C7.** For every input string (the empty string included), both stripping
functions — `explainer.remove_non_ascii` and `report.remove_unicode` — remove
exactly the characters with code point ≥ 128 and preserve, in order, every
character with code point below 128: each equals the order-preserving filter
keeping the characters of code point < 128. -/
theorem strip_is_ascii_filter (s : String) :
    remove_non_ascii s = String.mk (s.data.filter fun c => c.toNat < 128) ∧
    remove_unicode s = String.mk (s.data.filter fun c => c.toNat < 128) := by
  constructor
  · simp [remove_non_ascii, asciiIgnore_eq_filter]
  · simp [remove_unicode, subOutsideAscii_eq_filter]

theorem normalizeSeps_id (l : List Char) (h : ∀ c ∈ l, c ≠ '\\') :
    normalizeSeps l = l := by
  induction l with
  | nil => rfl
  | cons c cs ih =>
    have hc : c ≠ '\\' := h c (by simp)
    simp only [normalizeSeps, List.map_cons, if_neg hc]
    have := ih fun d hd => h d (by simp [hd])
    simpa [normalizeSeps] using this

theorem escapeSpecials_id (l : List Char) (h : ∀ c ∈ l, c ∉ SPECIALS) :
    escapeSpecials l = l := by
  induction l with
  | nil => rfl
  | cons c cs ih =>
    have hc : c ∉ SPECIALS := h c (by simp)
    simp only [escapeSpecials, if_neg hc]
    exact congrArg (c :: ·) (ih fun d hd => h d (by simp [hd]))

/-- **C8.** Path escaping (`explainer.safe_path`) is the identity on every
string containing only already-permitted characters (no character of the
special class — which contains the backslash), and escaping `a_b#c` yields
`a\_b\#c`. -/
theorem safe_path_spec :
    (∀ s : String, (∀ c ∈ s.data, c ∉ SPECIALS) → safe_path s = s) ∧
    safe_path "a_b#c" = "a\\_b\\#c" := by
  constructor
  · intro s hs
    have hb : ∀ c ∈ s.data, c ≠ '\\' := by
      intro c hc heq
      exact hs c hc (by simp [SPECIALS, heq])
    simp [safe_path, normalizeSeps_id s.data hb, escapeSpecials_id s.data hs]
  · decide

/-- Closed instance of the hypothesised part of `safe_path_spec`. -/
theorem safe_path_spec_witness : safe_path "src/app.py" = "src/app.py" :=
  safe_path_spec.1 "src/app.py" (by decide)

/-! ## C2: the size threshold is strict in the code -/

/-- **C2 (counterexample).** A file of exactly 50,000 bytes — "at the
threshold" — is NOT skipped: the per-file task issues an LLM call (the prompt
trace is non-empty) and produces both fragments.  The code's test is the
strict `os.path.getsize(file_path) > 50_000`. -/
theorem threshold_file_is_processed :
    (⟨[], "big.py", 50000, "print(1)", 3⟩ : TaskD).size ≥ 50000 ∧
    (process_file (fun _ => .ok "E") ⟨[], "big.py", 50000, "print(1)", 3⟩).2 ≠ [] ∧
    (process_file (fun _ => .ok "E") ⟨[], "big.py", 50000, "print(1)", 3⟩).1 ≠ .ok none := by
  refine ⟨by decide, ?_, ?_⟩ <;> decide

/-- **C2 (amended).** For every file whose size in bytes is strictly above the
50,000-byte threshold, the per-file task issues no LLM call (empty prompt
trace) and produces no fragment: it returns the soft-skip `none` rather than
failing the run. -/
theorem oversize_file_skipped (oracle : LLM) (t : TaskD) (h : t.size > 50000) :
    process_file oracle t = (.ok none, []) := by
  unfold process_file
  by_cases hext : extLower t.name ∉ ALLOWED_EXTENSIONS
  · simp [hext]
  · simp [hext, h]

/-- Closed instance of `oversize_file_skipped`. -/
theorem oversize_file_skipped_witness :
    (50001 > 50000) ∧
    process_file (fun _ => .ok "E") (⟨[], "big.py", 50001, "x", 1⟩ : TaskD) = (.ok none, []) :=
  ⟨by decide, oversize_file_skipped (fun _ => .ok "E") ⟨[], "big.py", 50001, "x", 1⟩ (by decide)⟩

/-! ## C10: the two report-run traversals prune different directories -/

/-- A project with a file under `dist/`, a file under `venv/`, and a top-level
file. -/
def demoC10 : EntryList :=
  .cons (.dir "dist" (.cons (.file ⟨"d.py", 4, "DIST"⟩) .nil))
  (.cons (.dir "venv" (.cons (.file ⟨"v.py", 4, "VENV"⟩) .nil))
  (.cons (.file ⟨"m.py", 4, "MAIN"⟩) .nil))

/-- **C10.** Within one report run the two traversals use different exclusion
sets — the complexity pass (`report.run_lizard`) prunes
`{node_modules, .git, __pycache__, venv, .idea, .vscode}` while the AI-summary
pass (`explainer.explain_project`) prunes
`{node_modules, .git, dist, build, __pycache__}` — and consequently, for the
project above, the file under `dist` is visited by the complexity pass but not
by the summary pass, the file under `venv` the reverse, and the summary's
`all_code` contains only the top-level and `venv` contents. -/
theorem report_exclusion_sets_differ :
    Explainer.EXCLUDE_DIRS = ["node_modules", ".git", "dist", "build", "__pycache__"] ∧
    Report.EXCLUDE_DIRS = ["node_modules", ".git", "__pycache__", "venv", ".idea", ".vscode"] ∧
    (["dist", "d.py"] ∈ lizardVisit demoC10 ∧ ["dist", "d.py"] ∉ explainVisit demoC10) ∧
    (["venv", "v.py"] ∈ explainVisit demoC10 ∧ ["venv", "v.py"] ∉ lizardVisit demoC10) ∧
    explainAllCode demoC10 = "MAIN\n\nVENV\n\n" := by
  refine ⟨rfl, rfl, ⟨?_, ?_⟩, ⟨?_, ?_⟩, ?_⟩ <;> decide

/-! ## C9: CLI outcomes of explainer.main -/

/-- **C9.** For every invocation of the folder-pipeline CLI: with the
credential present, a missing folder argument or a non-directory path makes
the program exit with status 1 after a usage/error message; with the
credential absent (unset or empty) it instead terminates via the unhandled
`ValueError`. -/
theorem main_cli_outcomes (env : CliEnv) :
    (keyTruthy env.apiKey = false →
      mainExplainer env = .raised "OPENROUTER_API_KEY not set in environment variables.") ∧
    (keyTruthy env.apiKey = true → env.argv.length < 2 →
      mainExplainer env = .exit1 "Usage: python explainer.py <folder_path>") ∧
    (keyTruthy env.apiKey = true → 2 ≤ env.argv.length →
      env.isDir ((env.argv.get? 1).getD "") = false →
      mainExplainer env =
        .exit1 ("❌ '" ++ (env.argv.get? 1).getD "" ++ "' is not a valid folder.")) := by
  refine ⟨?_, ?_, ?_⟩
  · intro hk
    simp [mainExplainer, hk]
  · intro hk hlen
    simp [mainExplainer, hk, hlen]
  · intro hk hlen hdir
    have hlen' : ¬ env.argv.length < 2 := by omega
    rw [List.get?_eq_getElem?] at hdir
    simp [mainExplainer, hk, hlen', hdir]

/-- Closed instances of the three cases of `main_cli_outcomes`. -/
theorem main_cli_outcomes_witness :
    mainExplainer ⟨none, ["explainer.py", "proj"], fun _ => true⟩ =
      .raised "OPENROUTER_API_KEY not set in environment variables." ∧
    mainExplainer ⟨some "sk-key", ["explainer.py"], fun _ => true⟩ =
      .exit1 "Usage: python explainer.py <folder_path>" ∧
    mainExplainer ⟨some "sk-key", ["explainer.py", "nope"], fun _ => false⟩ =
      .exit1 ("❌ '" ++ "nope" ++ "' is not a valid folder.") :=
  ⟨(main_cli_outcomes ⟨none, ["explainer.py", "proj"], fun _ => true⟩).1 (by decide),
   (main_cli_outcomes ⟨some "sk-key", ["explainer.py"], fun _ => true⟩).2.1 (by decide) (by decide),
   (main_cli_outcomes ⟨some "sk-key", ["explainer.py", "nope"], fun _ => false⟩).2.2
     (by decide) (by decide) (by decide)⟩

/-! ## C6: the complexity pass skips failing files and aggregates in order -/

/-- The function records one file contributes: its analysis result on success,
nothing when the analyzer raises. -/
def okRecords (analyze : Analyzer) (fp : List String) : List FuncRec :=
  match analyze fp with
  | .ok fl => fl
  | .error _ => []

theorem run_lizard_foldl_general (analyze : Analyzer) (fps : List (List String))
    (acc : List FuncRec) :
    fps.foldl
      (fun results fp =>
        match analyze fp with
        | .ok fl => results ++ fl
        | .error _ => results)
      acc = acc ++ fps.flatMap (okRecords analyze) := by
  induction fps generalizing acc with
  | nil => simp
  | cons fp rest ih =>
    simp only [List.foldl_cons, List.flatMap_cons]
    cases h : analyze fp with
    | ok fl => simp [ih, okRecords, h, List.append_assoc]
    | error e => simp [ih, okRecords, h]

/-- **C6.** `report.run_lizard` returns the concatenation, in file-visitation
order, of the per-function records of the files that analyze successfully (a
file whose analysis raises contributes nothing and does not abort the pass);
and for a project with no matching files the aggregated result is empty and
the complexity report body is the empty string. -/
theorem run_lizard_spec (analyze : Analyzer) (root : EntryList) :
    run_lizard analyze root = (lizardVisit root).flatMap (okRecords analyze) ∧
    (lizardVisit root = [] →
      run_lizard analyze root = [] ∧ complexityReport (run_lizard analyze root) = "") := by
  have hmain : run_lizard analyze root = (lizardVisit root).flatMap (okRecords analyze) := by
    simpa using run_lizard_foldl_general analyze (lizardVisit root) []
  refine ⟨hmain, fun hempty => ?_⟩
  have hnil : run_lizard analyze root = [] := by simp [hmain, hempty]
  refine ⟨hnil, ?_⟩
  rw [hnil]
  rfl

/-- Closed instance of `run_lizard_spec` on a project with no matching files
(an empty root directory) and an analyzer that would fail everywhere. -/
theorem run_lizard_spec_witness :
    lizardVisit (.cons (.file ⟨"README.md", 7, "docs"⟩) .nil) = [] ∧
    run_lizard (fun _ => .error "lizard crash") (.cons (.file ⟨"README.md", 7, "docs"⟩) .nil) = [] ∧
    complexityReport
      (run_lizard (fun _ => .error "lizard crash") (.cons (.file ⟨"README.md", 7, "docs"⟩) .nil)) = "" :=
  ⟨by decide,
   ((run_lizard_spec (fun _ => .error "lizard crash")
      (.cons (.file ⟨"README.md", 7, "docs"⟩) .nil)).2 (by decide)).1,
   ((run_lizard_spec (fun _ => .error "lizard crash")
      (.cons (.file ⟨"README.md", 7, "docs"⟩) .nil)).2 (by decide)).2⟩

/-! ## C3: which traversals sort the per-directory file listings -/

theorem strLeB_total (a : List Char) : ∀ b, strLeB a b = true ∨ strLeB b a = true := by
  induction a with
  | nil => intro b; left; cases b <;> rfl
  | cons x xs ih =>
    intro b
    cases b with
    | nil => right; rfl
    | cons y ys =>
      rcases Nat.lt_trichotomy x.toNat y.toNat with h | h | h
      · left; simp [strLeB, h]
      · have h1 : ¬ x.toNat < y.toNat := by omega
        have h2 : ¬ y.toNat < x.toNat := by omega
        rcases ih ys with hxy | hyx
        · left; simp [strLeB, h1, h2, hxy]
        · right; simp [strLeB, h1, h2, hyx]
      · right; simp [strLeB, h]

theorem strLeB_trans (a : List Char) :
    ∀ b c, strLeB a b = true → strLeB b c = true → strLeB a c = true := by
  induction a with
  | nil => intro b c _ _; rfl
  | cons x xs ih =>
    intro b c hab hbc
    cases b with
    | nil => simp [strLeB] at hab
    | cons y ys =>
      cases c with
      | nil => simp [strLeB] at hbc
      | cons z zs =>
        simp only [strLeB] at hab hbc ⊢
        by_cases hxy : x.toNat < y.toNat
        · by_cases hyz : y.toNat < z.toNat
          · have hxz : x.toNat < z.toNat := by omega
            simp [hxz]
          · by_cases hzy : z.toNat < y.toNat
            · rw [if_neg hyz, if_pos hzy] at hbc
              exact absurd hbc (by simp)
            · have hxz : x.toNat < z.toNat := by omega
              simp [hxz]
        · by_cases hyx : y.toNat < x.toNat
          · rw [if_neg hxy, if_pos hyx] at hab
            exact absurd hab (by simp)
          · rw [if_neg hxy, if_neg hyx] at hab
            by_cases hyz : y.toNat < z.toNat
            · have hxz : x.toNat < z.toNat := by omega
              simp [hxz]
            · by_cases hzy : z.toNat < y.toNat
              · rw [if_neg hyz, if_pos hzy] at hbc
                exact absurd hbc (by simp)
              · rw [if_neg hyz, if_neg hzy] at hbc
                have hxz : ¬ x.toNat < z.toNat := by omega
                have hzx : ¬ z.toNat < x.toNat := by omega
                rw [if_neg hxz, if_neg hzx]
                exact ih ys zs hab hbc

instance : IsTotal FileE fileLe := ⟨fun a b => strLeB_total a.name.data b.name.data⟩

instance : IsTrans FileE fileLe :=
  ⟨fun a b c hab hbc => strLeB_trans a.name.data b.name.data c.name.data hab hbc⟩

/-- A directory whose OS listing reports `b.py` before `a.py`. -/
def demoC3 : EntryList :=
  .cons (.dir "d" (.cons (.file ⟨"b.py", 1, "B"⟩) (.cons (.file ⟨"a.py", 1, "A"⟩) .nil))) .nil

/-- **C3 (counterexample).** Only the explanation pipeline sorts: on a
directory listed as `[b.py, a.py]`, both the report-summary traversal
(`explain_project`) and the complexity traversal (`run_lizard`) visit the
files in listing order, which is not lexical order. -/
theorem unsorted_traversal_exists :
    explainVisit demoC3 = [["d", "b.py"], ["d", "a.py"]] ∧
    lizardVisit demoC3 = [["d", "b.py"], ["d", "a.py"]] ∧
    strLeB "b.py".data "a.py".data = false := by
  refine ⟨?_, ?_, ?_⟩ <;> decide

/-- **C3 (amended).** The explanation pipeline (`process_folder`) visits the
files within each walked directory in lexical (sorted) order: for every frame
of its traversal, the sorted listing it iterates over is ordered by `fileLe`
and is a permutation of the directory's listing.  (The report-summary and
complexity traversals do not sort; see the counterexample.) -/
theorem process_folder_sorts_per_directory (root : EntryList) :
    ∀ fr ∈ osWalk Explainer.EXCLUDE_DIRS root,
      List.Sorted fileLe (sortFiles fr.2) ∧ (sortFiles fr.2).Perm fr.2 := by
  intro fr _
  exact ⟨List.sorted_insertionSort fileLe fr.2, List.perm_insertionSort fileLe fr.2⟩

/-- Closed instance of `process_folder_sorts_per_directory` on `demoC3`. -/
theorem process_folder_sorts_per_directory_witness :
    List.Sorted fileLe (sortFiles [⟨"b.py", 1, "B"⟩, ⟨"a.py", 1, "A"⟩]) ∧
    (sortFiles [⟨"b.py", 1, "B"⟩, ⟨"a.py", 1, "A"⟩]).Perm [⟨"b.py", 1, "B"⟩, ⟨"a.py", 1, "A"⟩] :=
  process_folder_sorts_per_directory demoC3
    (["d"], [⟨"b.py", 1, "B"⟩, ⟨"a.py", 1, "A"⟩]) (by decide)

/-! ## C5: exclusion pruning and the extension allow-list -/

theorem walkList_comps (ex : List String) :
    ∀ comps es, ∀ fr ∈ walkList ex comps es,
      ∃ extra, fr.1 = comps ++ extra ∧ ∀ d ∈ extra, d ∉ ex := by
  refine walkList.induct ex
    (fun comps es => ∀ fr ∈ walkList ex comps es,
      ∃ extra, fr.1 = comps ++ extra ∧ ∀ d ∈ extra, d ∉ ex) ?_ ?_ ?_
  · intro comps fr hfr
    simp [walkList] at hfr
  · intro comps f es ih fr hfr
    rw [walkList] at hfr
    exact ih fr hfr
  · intro comps n cs es ih1 ih2 fr hfr
    rw [walkList] at hfr
    rcases List.mem_append.1 hfr with h | h
    · by_cases hn : n ∈ ex
      · rw [if_pos hn] at h
        simp at h
      · rw [if_neg hn] at h
        rcases List.mem_cons.1 h with rfl | h
        · exact ⟨[n], rfl, fun d hd => by
            rcases List.mem_singleton.1 hd with rfl
            exact hn⟩
        · rcases ih1 fr h with ⟨extra, hcomps, hex⟩
          refine ⟨n :: extra, by simp [hcomps], fun d hd => ?_⟩
          rcases List.mem_cons.1 hd with rfl | hd
          · exact hn
          · exact hex d hd
    · exact ih2 fr h

theorem osWalk_comps (ex : List String) (root : EntryList) :
    ∀ fr ∈ osWalk ex root, ∀ d ∈ fr.1, d ∉ ex := by
  intro fr hfr
  rcases List.mem_cons.1 hfr with rfl | hfr
  · intro d hd
    simp at hd
  · rcases walkList_comps ex [] root fr hfr with ⟨extra, hcomps, hex⟩
    intro d hd
    rw [hcomps] at hd
    exact hex d (by simpa using hd)

theorem mem_enumFrom_snd {α : Type} :
    ∀ (l : List α) (n : Nat) (p : Nat × α), p ∈ l.enumFrom n → p.2 ∈ l := by
  intro l
  induction l with
  | nil => intro n p hp; simp [List.enumFrom] at hp
  | cons a as ih =>
    intro n p hp
    rw [List.enumFrom] at hp
    rcases List.mem_cons.1 hp with rfl | hp
    · exact List.mem_cons_self a as
    · exact List.mem_cons_of_mem a (ih (n + 1) p hp)

theorem mem_discoveredFiles (root : EntryList) :
    ∀ p ∈ discoveredFiles root,
      (∀ d ∈ p.1, d ∉ Explainer.EXCLUDE_DIRS) ∧
      extLower p.2.name ∈ ALLOWED_EXTENSIONS := by
  intro p hp
  rcases List.mem_flatMap.1 hp with ⟨fr, hfr, hpfr⟩
  rcases List.mem_map.1 hpfr with ⟨f, hf, rfl⟩
  have hfilter := List.mem_filter.1 hf
  refine ⟨osWalk_comps Explainer.EXCLUDE_DIRS root fr hfr, ?_⟩
  exact of_decide_eq_true hfilter.2

/-- **C5.** For every root directory, every task enqueued by the explanation
pipeline lies outside every excluded directory — no component of its relative
directory path is in `explainer.EXCLUDE_DIRS`, at any nesting depth, because
excluded directories are pruned before descent — and its (lower-cased)
extension is in the allow-list. -/
theorem discovery_respects_excludes (root : EntryList) :
    ∀ t ∈ tasksOf root,
      (∀ d ∈ t.comps, d ∉ Explainer.EXCLUDE_DIRS) ∧
      extLower t.name ∈ ALLOWED_EXTENSIONS := by
  intro t ht
  rcases List.mem_map.1 ht with ⟨q, hq, rfl⟩
  have hsnd : q.2 ∈ discoveredFiles root := mem_enumFrom_snd _ 0 q hq
  exact mem_discoveredFiles root q.2 hsnd

/-- A project with an allowed file nested under an excluded `.git` directory
and one ordinary allowed file. -/
def demoC5 : EntryList :=
  .cons (.dir "a"
    (.cons (.dir ".git" (.cons (.file ⟨"secret.py", 1, "S"⟩) .nil))
    (.cons (.file ⟨"ok.py", 1, "K"⟩) .nil))) .nil

/-- Closed instance of `discovery_respects_excludes`: on `demoC5` the single
discovered task is `a/ok.py`, whose directory components avoid the exclusion
set and whose extension is allowed (the `.git/secret.py` file is never
discovered). -/
theorem discovery_respects_excludes_witness :
    tasksOf demoC5 = [⟨["a"], "ok.py", 1, "K", 1⟩] ∧
    ((∀ d ∈ (["a"] : List String), d ∉ Explainer.EXCLUDE_DIRS) ∧
      extLower "ok.py" ∈ ALLOWED_EXTENSIONS) :=
  ⟨by decide,
   discovery_respects_excludes demoC5 ⟨["a"], "ok.py", 1, "K", 1⟩ (by decide)⟩

/-! ## C4: counters reflect enqueue order and are embedded in the headings -/

theorem process_file_heading (oracle : LLM) (t : TaskD) (c x : String)
    (h : (process_file oracle t).1 = .ok (some (c, x))) :
    (∃ r, c = mdHeading t.counter (safe_path (relPathOf t)) ++ r) ∧
    (∃ r, x = mdHeading t.counter (safe_path (relPathOf t)) ++ r) := by
  unfold process_file at h
  by_cases hext : extLower t.name ∉ ALLOWED_EXTENSIONS
  · simp [hext] at h
  · by_cases hsize : t.size > 50000
    · simp [hext, hsize] at h
    · simp only [hext, hsize, if_false, ite_false, if_neg, not_false_eq_true] at h
      cases hllm : call_llm oracle (explanationPrompt t.content) with
      | error e => simp [hllm] at h
      | ok explanation =>
        simp [hllm] at h
        exact ⟨⟨_, h.1.symm⟩, ⟨_, h.2.symm⟩⟩

/-- **C4.** For every run of the folder pipeline, the k-th allowed file in
discovery (enqueue) order is assigned counter k (counters start at 1 and
increase by 1 per submitted task), and whenever the per-file task produces its
two fragments, both begin with the `## k. <escaped path>` heading built from
exactly that counter — a fact independent of completion order, since the
fragments are functions of the task descriptor alone. -/
theorem counters_follow_enqueue_order (root : EntryList) (i : Nat)
    (h : i < (tasksOf root).length) :
    ((tasksOf root).get ⟨i, h⟩).counter = i + 1 ∧
    ∀ (oracle : LLM) (c x : String),
      (process_file oracle ((tasksOf root).get ⟨i, h⟩)).1 = .ok (some (c, x)) →
      (∃ r, c = mdHeading (i + 1)
        (safe_path (relPathOf ((tasksOf root).get ⟨i, h⟩))) ++ r) ∧
      (∃ r, x = mdHeading (i + 1)
        (safe_path (relPathOf ((tasksOf root).get ⟨i, h⟩))) ++ r) := by
  have hcounter : ((tasksOf root).get ⟨i, h⟩).counter = i + 1 := by
    simp [tasksOf, List.get_eq_getElem, List.getElem_map, List.getElem_enum]
  refine ⟨hcounter, fun oracle c x hpf => ?_⟩
  have := process_file_heading oracle ((tasksOf root).get ⟨i, h⟩) c x hpf
  rwa [hcounter] at this

/-- A project whose two allowed files are enqueued as counters 1 and 2. -/
def demoC4 : EntryList :=
  .cons (.file ⟨"a.py", 1, "A"⟩) (.cons (.file ⟨"b.py", 1, "B"⟩) .nil)

/-- Closed instance of `counters_follow_enqueue_order` at the second enqueued
file of `demoC4` (index 1, counter 2), with an oracle answering `Expl`. -/
theorem counters_follow_enqueue_order_witness :
    ((tasksOf demoC4).get ⟨1, by decide⟩).counter = 1 + 1 ∧
    ((∃ r, "## 2. b.py\n```py\nB\n```\n\n" = mdHeading (1 + 1)
        (safe_path (relPathOf ((tasksOf demoC4).get ⟨1, by decide⟩))) ++ r) ∧
     (∃ r, "## 2. b.py\n\nExpl\n\n" = mdHeading (1 + 1)
        (safe_path (relPathOf ((tasksOf demoC4).get ⟨1, by decide⟩))) ++ r)) :=
  ⟨(counters_follow_enqueue_order demoC4 1 (by decide)).1,
   (counters_follow_enqueue_order demoC4 1 (by decide)).2
     (fun _ => .ok "Expl") "## 2. b.py\n```py\nB\n```\n\n" "## 2. b.py\n\nExpl\n\n"
     (by decide)⟩

/-! ## C1: one failing per-file task aborts the whole run -/

/-- Whether a future holds a raised error (to be re-raised by `result()`). -/
def isErr : Except String (Option (String × String)) → Bool
  | .error _ => true
  | .ok _ => false

theorem collectResults_error (oracle : LLM) (ts : List TaskD) :
    ∀ (perm : List Nat) (code expl corpus : String),
      (∃ i ∈ perm, ∃ t, ts.get? i = some t ∧ isErr (process_file oracle t).1 = true) →
      ∃ e, collectResults oracle ts perm code expl corpus = .error e := by
  intro perm
  induction perm with
  | nil =>
    intro code expl corpus h
    rcases h with ⟨i, hi, _⟩
    simp at hi
  | cons j rest ih =>
    intro code expl corpus h
    rw [collectResults]
    cases hget : ts.get? j with
    | none =>
      simp only []
      apply ih
      rcases h with ⟨i, hi, t, hit, herr⟩
      rcases List.mem_cons.1 hi with rfl | hi
      · rw [hget] at hit
        cases hit
      · exact ⟨i, hi, t, hit, herr⟩
    | some t =>
      simp only []
      cases hpf : (process_file oracle t).1 with
      | error e => exact ⟨e, rfl⟩
      | ok o =>
        have hrest : ∃ i ∈ rest, ∃ t', ts.get? i = some t' ∧
            isErr (process_file oracle t').1 = true := by
          rcases h with ⟨i, hi, t', hit, herr⟩
          rcases List.mem_cons.1 hi with rfl | hi
          · rw [hget] at hit
            cases hit
            rw [hpf] at herr
            simp [isErr] at herr
          · exact ⟨i, hi, t', hit, herr⟩
        cases o with
        | none => exact ih code expl corpus hrest
        | some p =>
          cases p with
          | mk c x => exact ih (code ++ c) (expl ++ x) (corpus ++ x ++ "\n") hrest

/-- **C1.** For every run of the folder pipeline and every completion order of
the futures, if the LLM call of any one per-file task raised, that error
surfaces when the orchestrator retrieves the task's result (`future.result()`
re-raises, and `process_folder` does not catch it): the run aborts with the
error and writes no document at all — in particular no quiz PDF — regardless
of how many other tasks succeeded. -/
theorem failing_task_aborts_run (oracle : LLM) (root : EntryList) (perm : List Nat)
    (hperm : perm.Perm (List.range (tasksOf root).length))
    (hfail : ∃ t ∈ tasksOf root, isErr (process_file oracle t).1 = true) :
    (process_folder oracle root perm).1 = [] ∧
    (process_folder oracle root perm).2.isSome = true := by
  rcases hfail with ⟨t, ht, herr⟩
  rcases List.mem_iff_get.1 ht with ⟨⟨i, hi⟩, rfl⟩
  have hget : (tasksOf root).get? i = some ((tasksOf root).get ⟨i, hi⟩) :=
    List.get?_eq_get hi
  have himem : i ∈ perm := by
    rw [hperm.mem_iff]
    exact List.mem_range.2 hi
  obtain ⟨e, hcoll⟩ := collectResults_error oracle (tasksOf root) perm
    "# Project Code\n\n" "# Project Code with Short Explanations\n\n" ""
    ⟨i, himem, _, hget, herr⟩
  unfold process_folder
  simp [hcoll]

/-- Five allowed files; the LLM call fails exactly on the third file's code. -/
def demoC1 : EntryList :=
  .cons (.file ⟨"a.py", 5, "CODE1"⟩) (.cons (.file ⟨"b.py", 5, "CODE2"⟩)
  (.cons (.file ⟨"c.py", 5, "CODE3"⟩) (.cons (.file ⟨"d.py", 5, "CODE4"⟩)
  (.cons (.file ⟨"e.py", 5, "CODE5"⟩) .nil))))

/-- A mock LLM client that raises on the third file's prompt and succeeds on
everything else (quiz prompt included). -/
def oracleC1 : LLM := fun p =>
  if p = explanationPrompt "CODE3" then .error "502 Bad Gateway" else .ok "fine"

/-- Closed instance of `failing_task_aborts_run`: with the mock client failing
on the third of five files and a shuffled completion order, the run aborts and
produces no document (so no quiz PDF). -/
theorem failing_task_aborts_run_witness :
    ([3, 0, 2, 4, 1] : List Nat).Perm (List.range (tasksOf demoC1).length) ∧
    (∃ t ∈ tasksOf demoC1, isErr (process_file oracleC1 t).1 = true) ∧
    (process_folder oracleC1 demoC1 [3, 0, 2, 4, 1]).1 = [] ∧
    (process_folder oracleC1 demoC1 [3, 0, 2, 4, 1]).2.isSome = true :=
  ⟨by decide, by decide,
   (failing_task_aborts_run oracleC1 demoC1 [3, 0, 2, 4, 1] (by decide) (by decide)).1,
   (failing_task_aborts_run oracleC1 demoC1 [3, 0, 2, 4, 1] (by decide) (by decide)).2⟩
